import Mathlib

/-!
# noploop.c : CPU frequency and instructions-per-cycle benchmark

A shallow embedding of `src/noploop.c`.

* `uint64_t` values are natural numbers, every operation reduced modulo `2^64`.
* `int` / `long` / `time_t` / `clock_t` values are integers, wrapped into the signed
  range of their width.  The width of `long` is not fixed by the source (the trailer of
  the file names an `-m32` build, a default x86-64 build is LP64), so it is a parameter
  (`DataModel`).
* The process environment (clocks, cycle counter, retired no-ops, call trace, printed
  lines) is an explicit `World` that every function threads through.
* An integer division by zero ends the run (`Outcome.fault`).
-/

namespace Noploop

/-! ## Machine arithmetic -/

/-- Number of values of a `uint64_t`. -/
def U64 : Nat := 2 ^ 64

/-- Subtraction of two `uint64_t` values (wraps modulo `2^64`). -/
def sub64 (a b : Nat) : Nat := (a % U64 + (U64 - b % U64)) % U64

/-- Addition of two `uint64_t` values (wraps modulo `2^64`). -/
def add64 (a b : Nat) : Nat := (a + b) % U64

/-- Multiplication of two `uint64_t` values (wraps modulo `2^64`). -/
def mul64 (a b : Nat) : Nat := (a * b) % U64

/-- Multiplication of two 32-bit unsigned values, for comparison with `mul64`. -/
def mul32 (a b : Nat) : Nat := (a * b) % 2 ^ 32

/-- Conversion of a signed integer to `uint64_t` (value modulo `2^64`). -/
def toU64 (x : Int) : Nat := (x % 18446744073709551616).toNat

/-- Two's-complement wrap of an integer into the signed range of `bits` bits. -/
def wrapSigned (bits : Nat) (x : Int) : Int :=
  (x + 2 ^ (bits - 1)) % 2 ^ bits - 2 ^ (bits - 1)

/-- Largest value of a signed integer of `bits` bits. -/
def maxSigned (bits : Nat) : Int := 2 ^ (bits - 1) - 1

/-- The C data model of the build: it fixes the width of `long`, and with it the width of
`time_t` and `clock_t`, in which the two time sources compute. -/
inductive DataModel where
  | ilp32
  | lp64
deriving DecidableEq

/-- Width in bits of `long` (and of `time_t`, `clock_t`, which are `long`). -/
def DataModel.longBits : DataModel → Nat
  | .ilp32 => 32
  | .lp64 => 64

/-- Width in bits of `int`. -/
def INT_BITS : Nat := 32

/-! ## The workload: lines 22-46 -/

/-- The single instruction the workload is made of. -/
inductive Instr where
  | nop
deriving DecidableEq

/-- `#define NOP0 __asm__ __volatile__ ("nop" ...);` -/
def NOP0 : List Instr := [Instr.nop]
/-- `#define NOP1 NOP0 NOP0` -/
def NOP1 : List Instr := NOP0 ++ NOP0
/-- `#define NOP2 NOP1 NOP1` -/
def NOP2 : List Instr := NOP1 ++ NOP1
/-- `#define NOP3 NOP2 NOP2` -/
def NOP3 : List Instr := NOP2 ++ NOP2
/-- `#define NOP4 NOP3 NOP3` -/
def NOP4 : List Instr := NOP3 ++ NOP3
/-- `#define NOP5 NOP4 NOP4` -/
def NOP5 : List Instr := NOP4 ++ NOP4
/-- `#define NOP6 NOP5 NOP5` -/
def NOP6 : List Instr := NOP5 ++ NOP5
/-- `#define NOP7 NOP6 NOP6` -/
def NOP7 : List Instr := NOP6 ++ NOP6
/-- `#define NOP8 NOP7 NOP7` -/
def NOP8 : List Instr := NOP7 ++ NOP7
/-- `#define NOP9 NOP8 NOP8` -/
def NOP9 : List Instr := NOP8 ++ NOP8
/-- `#define NOP10 NOP9 NOP9` -/
def NOP10 : List Instr := NOP9 ++ NOP9
/-- `#define NOP11 NOP10 NOP10` -/
def NOP11 : List Instr := NOP10 ++ NOP10
/-- `#define NOP12 NOP11 NOP11` -/
def NOP12 : List Instr := NOP11 ++ NOP11

/-- `#define NOPS 4096` -/
def NOPS : Nat := 4096
/-- `#define NLOOP 10000000` -/
def NLOOP : Nat := 10000000

/-- Registers of `noploop` together with what an observer of the loop counts. -/
structure LoopState where
  /-- the counter `register int i` -/
  i : Int
  /-- no-op instructions executed so far -/
  nops : Nat
  /-- loop bodies completed so far -/
  iterations : Nat
  /-- whether some `i++` left the range of `int` -/
  overflowed : Bool
deriving DecidableEq

/-- Execute one instruction: a `nop` changes nothing but the count of retired no-ops. -/
def execInstr (retired : Nat) : Instr → Nat
  | .nop => retired + 1

/-- Execute a block of instructions in order. -/
def execBlock (block : List Instr) (retired : Nat) : Nat :=
  block.foldl execInstr retired

/-- The statement `i++` on the `int` counter. -/
def incrCounter (s : LoopState) : LoopState :=
  { s with i := wrapSigned INT_BITS (s.i + 1),
           overflowed := s.overflowed || decide (maxSigned INT_BITS < s.i + 1) }

/-- The loop body `{ NOP12; }`. -/
def loopBody (s : LoopState) : LoopState :=
  { s with nops := execBlock NOP12 s.nops, iterations := s.iterations + 1 }

/-- The loop `for (...; i < NLOOP; i++) { NOP12; }` entered with state `s`. -/
def noploopFrom (s : LoopState) : LoopState :=
  if s.i < (NLOOP : Int) then
    noploopFrom (incrCounter (loopBody s))
  else s
termination_by ((NLOOP : Int) - s.i).toNat
decreasing_by
  simp only [incrCounter, loopBody, wrapSigned, INT_BITS, NLOOP] at *
  omega

/-- The function `noploop` as run on its own registers: `i = 0`, then the loop. -/
def noploopRun : LoopState :=
  noploopFrom { i := 0, nops := 0, iterations := 0, overflowed := false }

/-! ## The clocks: lines 48-68 -/

/-- The system type `struct timespec`: whole seconds and nanoseconds, both signed `long`. -/
structure timespec where
  tv_sec : Int
  tv_nsec : Int
deriving DecidableEq

/-- The macro `CLOCKS_PER_SEC` of `<time.h>`; POSIX fixes its value at one million. -/
def CLOCKS_PER_SEC : Int := 1000000

/-- Lexicographic order of two clock readings. -/
def timespec.le (a b : timespec) : Prop :=
  a.tv_sec < b.tv_sec ∨ (a.tv_sec = b.tv_sec ∧ a.tv_nsec ≤ b.tv_nsec)

instance (a b : timespec) : Decidable (timespec.le a b) := by
  unfold timespec.le; infer_instance

/-- Line 53: `return time.tv_sec * 1000 + time.tv_nsec / 1000000;`
computed in `long` and converted to the `uint64_t` return type. -/
def realtimeOf (abi : DataModel) (time : timespec) : Nat :=
  toU64 (wrapSigned abi.longBits
    (wrapSigned abi.longBits (time.tv_sec * 1000) + time.tv_nsec.tdiv 1000000))

/-- Line 59: `return clock() / (CLOCKS_PER_SEC / 1000);`
computed in `clock_t` and converted to the `uint64_t` return type. -/
def usertimeOf (ticks : Int) : Nat :=
  toU64 (ticks.tdiv (CLOCKS_PER_SEC.tdiv 1000))

/-! ## The process environment -/

/-- The functions of the program whose calls are traced. -/
inductive Call where
  | realtime
  | usertime
  | tsccycles
  | noploop
deriving DecidableEq

/-- The five `uint64_t` arguments of the `printf` call of `mainloop`, in order: the values
handed to `printf`, before it formats them. -/
structure Report where
  instrate : Nat
  period : Nat
  tscfreq : Nat
  tscticks : Nat
  superscalar : Nat
deriving DecidableEq

/-- Everything a run can observe or change. The three clocks are given as the sequence
of values their successive reads return. -/
structure World where
  /-- data model of the build -/
  abi : DataModel
  /-- `CLOCK_REALTIME` as returned by the successive `clock_gettime` calls -/
  wallclock : Nat → timespec
  /-- number of `clock_gettime` calls made -/
  wallReads : Nat
  /-- results of the successive `clock()` calls -/
  cpuclock : Nat → Int
  /-- number of `clock()` calls made -/
  cpuReads : Nat
  /-- results of the successive `rdtsc` instructions -/
  tsc : Nat → Nat
  /-- number of `rdtsc` instructions executed -/
  tscReads : Nat
  /-- no-op instructions executed -/
  retired : Nat
  /-- calls made, oldest first -/
  trace : List Call
  /-- lines printed, oldest first -/
  stdout : List Report

/-- Result of running a function that may stop on a division by zero. -/
inductive Outcome (α : Type) where
  | ok (val : α) (w : World)
  | fault (w : World)

/-- The world in which a run ended. -/
def Outcome.world {α : Type} : Outcome α → World
  | .ok _ w => w
  | .fault w => w

/-- Whether a run ended on a division by zero. -/
def Outcome.faulted {α : Type} : Outcome α → Bool
  | .ok _ _ => false
  | .fault _ => true

/-- Lines 39-46 as seen by the process: the call is traced and the no-ops are retired. -/
def noploop (w : World) : World :=
  { w with retired := w.retired + noploopRun.nops, trace := w.trace ++ [Call.noploop] }

/-- Lines 48-54. -/
def realtime (w : World) : Nat × World :=
  (realtimeOf w.abi (w.wallclock w.wallReads),
   { w with wallReads := w.wallReads + 1, trace := w.trace ++ [Call.realtime] })

/-- Lines 56-60. -/
def usertime (w : World) : Nat × World :=
  (usertimeOf (wrapSigned w.abi.longBits (w.cpuclock w.cpuReads)),
   { w with cpuReads := w.cpuReads + 1, trace := w.trace ++ [Call.usertime] })

/-- Lines 62-68. -/
def tsccycles (w : World) : Nat × World :=
  (w.tsc w.tscReads % U64,
   { w with tscReads := w.tscReads + 1, trace := w.trace ++ [Call.tsccycles] })

/-- The values a `uint64_t (*gettime)(void)` takes in this program. -/
inductive TimeSource where
  | realtime
  | usertime
deriving DecidableEq

/-- Call through the function pointer. -/
def TimeSource.call : TimeSource → World → Nat × World
  | .realtime => Noploop.realtime
  | .usertime => Noploop.usertime

/-- The trace entry a call through the function pointer leaves. -/
def TimeSource.toCall : TimeSource → Call
  | .realtime => Call.realtime
  | .usertime => Call.usertime

/-! ## The measurement driver: lines 70-88 -/

/-- The four readings of one run. -/
structure Readings where
  start : Nat
  tscstart : Nat
  tscend : Nat
  end_ : Nat
deriving DecidableEq

/-- Lines 76-80: the bracketed workload. -/
def measure (gettime : TimeSource) (w : World) : Readings × World :=
  let (start, w) := gettime.call w
  let (tscstart, w) := tsccycles w
  let w := noploop w
  let (tscend, w) := tsccycles w
  let (end_, w) := gettime.call w
  ({ start := start, tscstart := tscstart, tscend := tscend, end_ := end_ }, w)

/-- Division of two `uint64_t` values; `none` is the division fault. -/
def div64 (a b : Nat) : Option Nat :=
  if b = 0 then none else some (a / b)

/-- The local variables that lines 82-85 assign. -/
structure Rates where
  tscticks : Nat
  period : Nat
  tscfreq : Nat
  instrate : Nat
deriving DecidableEq

/-- Lines 82-85: the derived rates, or `none` when a division faults. -/
def rates (r : Readings) : Option Rates :=
  let tscticks := sub64 r.tscend r.tscstart
  let period := sub64 r.end_ r.start
  (div64 tscticks period).bind fun tscfreq =>
  (div64 (mul64 NOPS NLOOP) period).bind fun instrate =>
  some { tscticks := tscticks, period := period, tscfreq := tscfreq, instrate := instrate }

/-- Lines 86-87: the arguments of the `printf` call, or `none` when the division in the
last of them faults. -/
def printfArgs (v : Rates) : Option Report :=
  (div64 (add64 v.instrate (v.tscfreq / 2)) v.tscfreq).bind fun superscalar =>
  some { instrate := v.instrate, period := v.period, tscfreq := v.tscfreq,
         tscticks := v.tscticks, superscalar := superscalar }

/-- Lines 82-87: the values handed to `printf`, or `none` when a division faults. -/
def report (r : Readings) : Option Report :=
  (rates r).bind printfArgs

/-- Lines 70-88. -/
def mainloop (gettime : TimeSource) (w : World) : Outcome Unit :=
  match report (measure gettime w).1 with
  | some line =>
      .ok () { (measure gettime w).2 with stdout := (measure gettime w).2.stdout ++ [line] }
  | none => .fault (measure gettime w).2

/-! ## The entry point: lines 109-117 -/

/-- The loop `for (...; i<3; i++) mainloop(gettime);` entered with counter `i`. -/
def mainFrom (gettime : TimeSource) (i : Int) (w : World) : Outcome Unit :=
  if i < 3 then
    match mainloop gettime w with
    | .ok _ w1 => mainFrom gettime (wrapSigned 32 (i + 1)) w1
    | .fault w1 => .fault w1
  else .ok () w
termination_by (3 - i).toNat
decreasing_by
  simp only [wrapSigned] at *
  omega

/-- Lines 109-117; the value is the exit status. -/
def main (argc : Int) (_argv : List String) (w : World) : Outcome Int :=
  let gettime := if argc > 1 then TimeSource.realtime else TimeSource.usertime
  match mainFrom gettime 0 w with
  | .ok _ w1 => .ok 0 w1
  | .fault w1 => .fault w1

/-! ## What the claims speak about -/

/-- The elapsed time of a run: `end - start` in `uint64_t`. -/
def elapsed (r : Readings) : Nat := sub64 r.end_ r.start

/-- The cycle delta of a run: `tscend - tscstart` in `uint64_t`. -/
def cycleDelta (r : Readings) : Nat := sub64 r.tscend r.tscstart

/-- The calls of one measurement run, in order. -/
def runTrace (gettime : TimeSource) : List Call :=
  [gettime.toCall, Call.tsccycles, Call.noploop, Call.tsccycles, gettime.toCall]

/-- The world of a process that has just started, with the given clocks. -/
def World.boot (abi : DataModel) (wallclock : Nat → timespec) (cpuclock : Nat → Int)
    (tsc : Nat → Nat) : World :=
  { abi := abi, wallclock := wallclock, wallReads := 0, cpuclock := cpuclock, cpuReads := 0,
    tsc := tsc, tscReads := 0, retired := 0, trace := [], stdout := [] }

/-- The time source that `main` selects for an argument count. -/
def selected (argc : Int) : TimeSource :=
  if argc > 1 then TimeSource.realtime else TimeSource.usertime

/-- Number of reads a world has served to a time source. -/
def World.timeReads (w : World) : TimeSource → Nat
  | .realtime => w.wallReads
  | .usertime => w.cpuReads

/-- The spec's "`n` measurement runs in sequence" with one time source: each run starts in
the world the previous one left, and a fault ends the sequence. -/
def runs (gettime : TimeSource) : Nat → World → Outcome Unit
  | 0, w => .ok () w
  | n + 1, w =>
    match mainloop gettime w with
    | .ok _ w1 => runs gettime n w1
    | .fault w1 => .fault w1

/-! ## Lemmas on the workload -/

theorem execBlock_eq (block : List Instr) (retired : Nat) :
    execBlock block retired = retired + block.length := by
  unfold execBlock
  induction block generalizing retired with
  | nil => simp
  | cons x xs ih =>
    cases x
    simp only [List.foldl_cons, execInstr, List.length_cons]
    rw [ih]
    omega

theorem NOP12_length : NOP12.length = 4096 := by
  have h0 : NOP0.length = 1 := rfl
  have h1 : NOP1.length = 2 := by rw [NOP1, List.length_append, h0]
  have h2 : NOP2.length = 4 := by rw [NOP2, List.length_append, h1]
  have h3 : NOP3.length = 8 := by rw [NOP3, List.length_append, h2]
  have h4 : NOP4.length = 16 := by rw [NOP4, List.length_append, h3]
  have h5 : NOP5.length = 32 := by rw [NOP5, List.length_append, h4]
  have h6 : NOP6.length = 64 := by rw [NOP6, List.length_append, h5]
  have h7 : NOP7.length = 128 := by rw [NOP7, List.length_append, h6]
  have h8 : NOP8.length = 256 := by rw [NOP8, List.length_append, h7]
  have h9 : NOP9.length = 512 := by rw [NOP9, List.length_append, h8]
  have h10 : NOP10.length = 1024 := by rw [NOP10, List.length_append, h9]
  have h11 : NOP11.length = 2048 := by rw [NOP11, List.length_append, h10]
  have h12 : NOP12.length = 4096 := by rw [NOP12, List.length_append, h11]
  exact h12

theorem noploopFrom_spec (k : Nat) (s : LoopState) (h0 : 0 ≤ s.i)
    (hk : s.i + k = (NLOOP : Int)) (ho : s.overflowed = false) :
    noploopFrom s =
      { i := (NLOOP : Int), nops := s.nops + k * 4096,
        iterations := s.iterations + k, overflowed := false } := by
  induction k generalizing s with
  | zero =>
    rw [noploopFrom]
    have : ¬ s.i < (NLOOP : Int) := by omega
    simp only [this, if_false]
    cases s
    simp_all
  | succ n ih =>
    rw [noploopFrom]
    have hlt : s.i < (NLOOP : Int) := by omega
    simp only [hlt, if_true]
    have hi : (incrCounter (loopBody s)).i = s.i + 1 := by
      simp only [incrCounter, loopBody, wrapSigned, INT_BITS]
      simp only [NLOOP] at hlt
      omega
    have hov : (incrCounter (loopBody s)).overflowed = false := by
      simp only [incrCounter, loopBody, maxSigned, INT_BITS, ho, Bool.false_or,
        decide_eq_false_iff_not]
      simp only [NLOOP] at hlt
      omega
    rw [ih (incrCounter (loopBody s)) (by rw [hi]; omega) (by rw [hi]; push_cast at hk ⊢; omega) hov]
    simp only [incrCounter, loopBody, execBlock_eq, NOP12_length]
    congr 1 <;> omega

theorem noploopRun_eq :
    noploopRun =
      { i := 10000000, nops := 40960000000, iterations := 10000000, overflowed := false } := by
  unfold noploopRun
  rw [noploopFrom_spec 10000000 _ (by simp) (by simp [NLOOP]) rfl]
  simp [NLOOP]

/-! ## Lemmas on the driver -/

theorem sub64_lt (a b : Nat) : sub64 a b < U64 := by
  unfold sub64
  exact Nat.mod_lt _ (by unfold U64; norm_num)

theorem mul64_NOPS_NLOOP : mul64 NOPS NLOOP = 40960000000 := by
  norm_num [mul64, NOPS, NLOOP, U64]

theorem add64_small (a b : Nat) (ha : a ≤ 40960000000) (hb : b < U64) :
    add64 a (b / 2) = a + b / 2 := by
  unfold add64
  apply Nat.mod_eq_of_lt
  unfold U64 at *
  omega

/-- The derived rates in closed form. -/
theorem rates_eq (r : Readings) :
    rates r =
      if elapsed r = 0 then none
      else some { tscticks := cycleDelta r, period := elapsed r,
                  tscfreq := cycleDelta r / elapsed r,
                  instrate := 40960000000 / elapsed r } := by
  unfold rates
  simp only [mul64_NOPS_NLOOP, show sub64 r.end_ r.start = elapsed r from rfl,
    show sub64 r.tscend r.tscstart = cycleDelta r from rfl]
  by_cases hp : elapsed r = 0
  · simp [div64, hp]
  · simp [div64, hp]

/-- The line of a run in closed form: which divisions fault, and the five values. -/
theorem report_eq (r : Readings) :
    report r =
      if elapsed r = 0 then none
      else if cycleDelta r / elapsed r = 0 then none
      else some { instrate := 40960000000 / elapsed r, period := elapsed r,
                  tscfreq := cycleDelta r / elapsed r, tscticks := cycleDelta r,
                  superscalar :=
                    (40960000000 / elapsed r + cycleDelta r / elapsed r / 2) /
                      (cycleDelta r / elapsed r) } := by
  unfold report
  rw [rates_eq]
  by_cases hp : elapsed r = 0
  · simp [hp]
  · by_cases hf : cycleDelta r / elapsed r = 0
    · simp [printfArgs, div64, hp, hf]
    · have hle : 40960000000 / elapsed r ≤ 40960000000 := Nat.div_le_self _ _
      have hlt : cycleDelta r / elapsed r < U64 :=
        lt_of_le_of_lt (Nat.div_le_self _ _) (sub64_lt _ _)
      simp [printfArgs, div64, hp, hf, add64_small _ _ hle hlt]

/-- Rounding by adding half the divisor is round-half-up of the exact quotient. -/
theorem add_half_div_eq_floor (r f : Nat) (hf : 0 < f) :
    (((r + f / 2) / f : Nat) : Int) = ⌊(r : ℚ) / (f : ℚ) + 1 / 2⌋ := by
  symm
  rw [Int.floor_eq_iff]
  have hfq : (0 : ℚ) < (f : ℚ) := by exact_mod_cast hf
  have h1 : (r + f / 2) / f * f ≤ r + f / 2 := Nat.div_mul_le_self _ _
  have h2 : r + f / 2 < ((r + f / 2) / f + 1) * f := Nat.lt_div_mul_add hf |>.trans_eq (by ring)
  have hk : 2 * (f / 2) ≤ f ∧ f ≤ 2 * (f / 2) + 1 := by omega
  generalize (r + f / 2) / f = n at h1 h2
  generalize f / 2 = k at h1 h2 hk
  have e1 : 2 * (n * f) ≤ 2 * r + f := by omega
  have e2 : 2 * r + f < 2 * ((n + 1) * f) := by omega
  have q1 : (2 : ℚ) * ((n : ℚ) * f) ≤ 2 * r + f := by exact_mod_cast e1
  have q2 : (2 : ℚ) * (r : ℚ) + f < 2 * (((n : ℚ) + 1) * f) := by exact_mod_cast e2
  constructor
  · rw [Int.cast_natCast, ← sub_le_iff_le_add, le_div_iff₀ hfq]
    linarith
  · rw [Int.cast_natCast, ← lt_sub_iff_add_lt, div_lt_iff₀ hfq]
    linarith

theorem measure_trace (g : TimeSource) (w : World) :
    (measure g w).2.trace = w.trace ++ runTrace g := by
  cases g <;>
    simp [measure, TimeSource.call, realtime, usertime, tsccycles, noploop, runTrace,
      TimeSource.toCall]

theorem measure_stdout (g : TimeSource) (w : World) :
    (measure g w).2.stdout = w.stdout := by
  cases g <;> rfl

theorem measure_tscReads (g : TimeSource) (w : World) :
    (measure g w).2.tscReads = w.tscReads + 2 := by
  cases g <;> rfl

theorem measure_retired (g : TimeSource) (w : World) :
    (measure g w).2.retired = w.retired + noploopRun.nops := by
  cases g <;> rfl

theorem mainloop_trace (g : TimeSource) (w : World) :
    (mainloop g w).world.trace = w.trace ++ runTrace g := by
  unfold mainloop
  cases report (measure g w).1 <;> simp [Outcome.world, measure_trace]

theorem mainloop_stdout (g : TimeSource) (w : World) :
    (mainloop g w).world.stdout = w.stdout ++ (report (measure g w).1).toList := by
  unfold mainloop
  cases report (measure g w).1 <;> simp [Outcome.world, measure_stdout]

theorem mainloop_faulted (g : TimeSource) (w : World) :
    (mainloop g w).faulted = true ↔ report (measure g w).1 = none := by
  unfold mainloop
  cases report (measure g w).1 <;> simp [Outcome.faulted]

theorem mainloop_ok (g : TimeSource) (w : World) (line : Report)
    (h : report (measure g w).1 = some line) :
    mainloop g w =
      Outcome.ok () { (measure g w).2 with stdout := w.stdout ++ [line] } := by
  unfold mainloop
  rw [h, measure_stdout]

theorem mainloop_ok_inv (g : TimeSource) (w w1 : World)
    (h : mainloop g w = Outcome.ok () w1) :
    ∃ line, report (measure g w).1 = some line ∧ w1.stdout = w.stdout ++ [line] ∧
      w1.trace = w.trace ++ runTrace g := by
  unfold mainloop at h
  cases hr : report (measure g w).1 with
  | none => rw [hr] at h; cases h
  | some line =>
    rw [hr] at h
    injection h with _ hw
    subst hw
    exact ⟨line, rfl, by simp [measure_stdout], by simp [measure_trace]⟩

theorem mainFrom_eq_runs (g : TimeSource) (n : Nat) (i : Int) (w : World)
    (h0 : 0 ≤ i) (hn : i + n = 3) : mainFrom g i w = runs g n w := by
  induction n generalizing i w with
  | zero =>
    rw [mainFrom, if_neg (by omega)]
    rfl
  | succ k ih =>
    rw [mainFrom, if_pos (by omega)]
    have hwrap : wrapSigned 32 (i + 1) = i + 1 := by
      simp only [wrapSigned]
      omega
    rw [hwrap]
    show _ = match mainloop g w with
      | .ok _ w1 => runs g k w1
      | .fault w1 => .fault w1
    cases mainloop g w with
    | ok v w1 => exact ih (i + 1) w1 (by omega) (by push_cast at hn ⊢; omega)
    | fault w1 => rfl

theorem main_eq_runs (argc : Int) (argv : List String) (w : World) :
    main argc argv w =
      match runs (selected argc) 3 w with
      | .ok _ w1 => .ok 0 w1
      | .fault w1 => .fault w1 := by
  unfold main
  simp only
  rw [mainFrom_eq_runs _ 3 0 w (le_refl _) (by norm_num)]
  rfl

theorem runs_trace (g : TimeSource) (n : Nat) (w : World) :
    ∃ k, k ≤ n ∧ ((runs g n w).faulted = false → k = n) ∧
      (runs g n w).world.trace = w.trace ++ (List.replicate k (runTrace g)).flatten ∧
      ((runs g n w).faulted = false →
        ∃ lines : List Report, lines.length = n ∧
          (runs g n w).world.stdout = w.stdout ++ lines) := by
  induction n generalizing w with
  | zero => exact ⟨0, le_refl _, fun _ => rfl, by simp [runs, Outcome.world],
      fun _ => ⟨[], rfl, by simp [runs, Outcome.world]⟩⟩
  | succ m ih =>
    cases hml : mainloop g w with
    | fault w1 =>
      have htr := mainloop_trace g w
      rw [hml] at htr
      refine ⟨1, by omega, ?_, ?_, ?_⟩
      · intro hf
        simp [runs, hml, Outcome.faulted] at hf
      · simp only [runs, hml]
        simpa [Outcome.world] using htr
      · intro hf
        simp [runs, hml, Outcome.faulted] at hf
    | ok v w1 =>
      obtain ⟨line, _, hout, htr⟩ := mainloop_ok_inv g w w1 hml
      obtain ⟨k, hk, hkn, hktr, hkout⟩ := ih w1
      refine ⟨k + 1, by omega, ?_, ?_, ?_⟩
      · intro hf
        simp only [runs, hml] at hf
        rw [hkn hf]
      · simp only [runs, hml]
        rw [hktr, htr, List.replicate_succ, List.flatten_cons, List.append_assoc]
      · intro hf
        simp only [runs, hml] at hf ⊢
        obtain ⟨lines, hlen, hl⟩ := hkout hf
        refine ⟨line :: lines, by simp [hlen], ?_⟩
        rw [hl, hout]
        simp

/-! ## Lemmas on the clocks -/

theorem wrapSigned_of_fits (abi : DataModel) (x : Int) (h0 : 0 ≤ x)
    (h1 : x ≤ maxSigned abi.longBits) : wrapSigned abi.longBits x = x := by
  cases abi <;> simp only [wrapSigned, DataModel.longBits, maxSigned] at * <;> omega

theorem toU64_of_fits (x : Int) (h0 : 0 ≤ x) (h1 : x ≤ 9223372036854775807) :
    (toU64 x : Int) = x := by
  unfold toU64
  omega

theorem realtimeOf_of_fits (abi : DataModel) (t : timespec) (hs : 0 ≤ t.tv_sec)
    (hn : 0 ≤ t.tv_nsec)
    (hfit : t.tv_sec * 1000 + t.tv_nsec / 1000000 ≤ maxSigned abi.longBits) :
    (realtimeOf abi t : Int) = t.tv_sec * 1000 + t.tv_nsec / 1000000 := by
  have hd : t.tv_nsec.tdiv 1000000 = t.tv_nsec / 1000000 :=
    Int.tdiv_eq_ediv hn (by norm_num)
  have hq : 0 ≤ t.tv_nsec / 1000000 := by omega
  have hmax : maxSigned abi.longBits ≤ 9223372036854775807 := by
    cases abi <;> decide
  unfold realtimeOf
  rw [hd, wrapSigned_of_fits abi (t.tv_sec * 1000) (by omega) (by omega),
    wrapSigned_of_fits abi _ (by omega) hfit]
  exact toU64_of_fits _ (by omega) (by omega)

theorem usertimeOf_of_fits (c : Int) (h0 : 0 ≤ c) (h1 : c ≤ 9223372036854775807) :
    (usertimeOf c : Int) = c / 1000 := by
  have hk : CLOCKS_PER_SEC.tdiv 1000 = 1000 := by decide
  have hd : c.tdiv 1000 = c / 1000 := Int.tdiv_eq_ediv h0 (by norm_num)
  unfold usertimeOf
  rw [hk, hd]
  exact toU64_of_fits _ (by omega) (by omega)

/-! ## The claims -/

/-- C1: for all four readings with `elapsed = t_end - t_start > 0`, `mainloop` computes the
frequency `floor (cycle_delta / elapsed)`, where `cycle_delta = c_end - c_start` in
`uint64_t`, and this is the frequency on the line it prints, for the two time sources and
every world; `elapsed = 1000` and `cycle_delta = 3000000000` print `3000000`. -/
theorem frequency_is_floor_of_delta_over_elapsed (r : Readings) (h : 0 < elapsed r) :
    (∃ v, rates r = some v ∧
        v.tscfreq = ⌊(cycleDelta r : ℚ) / (elapsed r : ℚ)⌋₊ ∧
        ∀ line, printfArgs v = some line → line.tscfreq = v.tscfreq) ∧
    (∀ line, report r = some line →
        line.tscfreq = cycleDelta r / elapsed r ∧
        line.tscfreq = ⌊(cycleDelta r : ℚ) / (elapsed r : ℚ)⌋₊) ∧
    (elapsed r ≤ cycleDelta r → ∃ line, report r = some line) ∧
    (∀ g w w1, (measure g w).1 = r → mainloop g w = Outcome.ok () w1 →
        ∃ line, w1.stdout = w.stdout ++ [line] ∧
          line.tscfreq = ⌊(cycleDelta r : ℚ) / (elapsed r : ℚ)⌋₊) ∧
    (elapsed r = 1000 → cycleDelta r = 3000000000 →
        ∃ line, report r = some line ∧ line.tscfreq = 3000000) := by
  have hne : elapsed r ≠ 0 := by omega
  have key : ∀ line, report r = some line → line.tscfreq = cycleDelta r / elapsed r := by
    intro line hl
    rw [report_eq, if_neg hne] at hl
    split at hl
    · cases hl
    · injection hl with hl
      rw [← hl]
  refine ⟨?_, fun line hl => ⟨key line hl, ?_⟩, ?_, ?_, ?_⟩
  · refine ⟨_, by rw [rates_eq, if_neg hne], ?_, ?_⟩
    · rw [Nat.floor_div_eq_div]
    · intro line hl
      unfold printfArgs at hl
      cases hd : div64 (add64 (40960000000 / elapsed r) (cycleDelta r / elapsed r / 2))
          (cycleDelta r / elapsed r) with
      | none => rw [hd] at hl; cases hl
      | some q =>
        rw [hd] at hl
        injection hl with hl
        rw [← hl]
  · rw [Nat.floor_div_eq_div]
    exact key line hl
  · intro hle
    have hf : cycleDelta r / elapsed r ≠ 0 := by
      have := Nat.div_pos hle h
      omega
    rw [report_eq, if_neg hne, if_neg hf]
    exact ⟨_, rfl⟩
  · intro g w w1 hr hok
    obtain ⟨line, hl, hout, _⟩ := mainloop_ok_inv g w w1 hok
    rw [hr] at hl
    refine ⟨line, hout, ?_⟩
    rw [Nat.floor_div_eq_div]
    exact key line hl
  · intro he hd
    rw [report_eq, he, hd]
    exact ⟨_, rfl, rfl⟩

/-- Witness of C1 at the readings `(0, 0, 3000000000, 1000)`. -/
theorem frequency_is_floor_of_delta_over_elapsed_witness :
    0 < elapsed ⟨0, 0, 3000000000, 1000⟩ ∧
    ∃ line, report ⟨0, 0, 3000000000, 1000⟩ = some line ∧ line.tscfreq = 3000000 :=
  ⟨by decide,
   (frequency_is_floor_of_delta_over_elapsed ⟨0, 0, 3000000000, 1000⟩ (by decide)).2.2.2.2
     (by decide) (by decide)⟩

/-- C2: for all four readings with `elapsed > 0`, `mainloop` computes the instruction rate
`floor (40960000000 / elapsed)` and this is the rate on the line it prints; the product
`(uint64_t)NOPS * NLOOP` is `4096 * 10000000 = 40960000000` without wrap-around (a 32-bit
product would differ); `elapsed = 8000` prints `5120000`. -/
theorem instrate_is_floor_of_count_over_elapsed (r : Readings) (h : 0 < elapsed r) :
    (∃ v, rates r = some v ∧
        v.instrate = ⌊((NOPS * NLOOP : Nat) : ℚ) / (elapsed r : ℚ)⌋₊ ∧
        ∀ line, printfArgs v = some line → line.instrate = v.instrate) ∧
    (∀ line, report r = some line →
        line.instrate = 40960000000 / elapsed r ∧
        line.instrate = ⌊((NOPS * NLOOP : Nat) : ℚ) / (elapsed r : ℚ)⌋₊) ∧
    (elapsed r ≤ cycleDelta r → ∃ line, report r = some line) ∧
    (∀ g w w1, (measure g w).1 = r → mainloop g w = Outcome.ok () w1 →
        ∃ line, w1.stdout = w.stdout ++ [line] ∧
          line.instrate = ⌊((NOPS * NLOOP : Nat) : ℚ) / (elapsed r : ℚ)⌋₊) ∧
    (mul64 NOPS NLOOP = NOPS * NLOOP ∧ NOPS * NLOOP = 40960000000 ∧
      NOPS = 4096 ∧ NLOOP = 10000000 ∧ mul32 NOPS NLOOP ≠ NOPS * NLOOP) ∧
    (elapsed r = 8000 → ∃ v, rates r = some v ∧ v.instrate = 5120000) ∧
    (elapsed r = 8000 → 8000 ≤ cycleDelta r →
        ∃ line, report r = some line ∧ line.instrate = 5120000) := by
  have hne : elapsed r ≠ 0 := by omega
  have hprod : NOPS * NLOOP = 40960000000 := by norm_num [NOPS, NLOOP]
  have key : ∀ line, report r = some line → line.instrate = 40960000000 / elapsed r := by
    intro line hl
    rw [report_eq, if_neg hne] at hl
    split at hl
    · cases hl
    · injection hl with hl
      rw [← hl]
  have hex : elapsed r ≤ cycleDelta r → ∃ line, report r = some line := by
    intro hle
    have hf : cycleDelta r / elapsed r ≠ 0 := by
      have := Nat.div_pos hle h
      omega
    rw [report_eq, if_neg hne, if_neg hf]
    exact ⟨_, rfl⟩
  refine ⟨?_, fun line hl => ⟨key line hl, ?_⟩, hex, ?_, ?_, ?_, ?_⟩
  · refine ⟨_, by rw [rates_eq, if_neg hne], ?_, ?_⟩
    · rw [Nat.floor_div_eq_div, hprod]
    · intro line hl
      unfold printfArgs at hl
      cases hd : div64 (add64 (40960000000 / elapsed r) (cycleDelta r / elapsed r / 2))
          (cycleDelta r / elapsed r) with
      | none => rw [hd] at hl; cases hl
      | some q =>
        rw [hd] at hl
        injection hl with hl
        rw [← hl]
  · rw [Nat.floor_div_eq_div, hprod]
    exact key line hl
  · intro g w w1 hr hok
    obtain ⟨line, hl, hout, _⟩ := mainloop_ok_inv g w w1 hok
    rw [hr] at hl
    refine ⟨line, hout, ?_⟩
    rw [Nat.floor_div_eq_div, hprod]
    exact key line hl
  · refine ⟨?_, hprod, rfl, rfl, ?_⟩
    · rw [mul64_NOPS_NLOOP, hprod]
    · norm_num [mul32, NOPS, NLOOP]
  · intro he
    refine ⟨_, by rw [rates_eq, if_neg hne], ?_⟩
    show 40960000000 / elapsed r = 5120000
    rw [he]
  · intro he hd
    obtain ⟨line, hl⟩ := hex (by omega)
    refine ⟨line, hl, ?_⟩
    rw [key line hl, he]

/-- Witness of C2 at the readings `(0, 0, 24000000000, 8000)`. -/
theorem instrate_is_floor_of_count_over_elapsed_witness :
    0 < elapsed ⟨0, 0, 24000000000, 8000⟩ ∧
    ∃ line, report ⟨0, 0, 24000000000, 8000⟩ = some line ∧ line.instrate = 5120000 :=
  ⟨by decide,
   (instrate_is_floor_of_count_over_elapsed ⟨0, 0, 24000000000, 8000⟩ (by decide)).2.2.2.2.2.2
     (by decide) (by decide)⟩

/-- C3: for all four readings with `elapsed > 0` whose frequency `f` is positive, the line is
printed and its instructions-per-cycle value, `(r + f/2) / f` in `uint64_t` with `r` the
instruction rate, is `floor (r/f + 1/2)` over the rationals, for odd and even `f` alike,
and `r + f/2` does not wrap. -/
theorem superscalar_is_round_half_up (r : Readings) (h : 0 < elapsed r)
    (hf : 0 < cycleDelta r / elapsed r) :
    ∃ line, report r = some line ∧
      line.instrate = 40960000000 / elapsed r ∧
      line.tscfreq = cycleDelta r / elapsed r ∧
      line.instrate + line.tscfreq / 2 < U64 ∧
      line.superscalar = add64 line.instrate (line.tscfreq / 2) / line.tscfreq ∧
      line.superscalar = (line.instrate + line.tscfreq / 2) / line.tscfreq ∧
      (line.superscalar : Int) = ⌊(line.instrate : ℚ) / (line.tscfreq : ℚ) + 1 / 2⌋ ∧
      ∀ g w, (measure g w).1 = r →
        ∃ w1, mainloop g w = Outcome.ok () w1 ∧ w1.stdout = w.stdout ++ [line] := by
  have hne : elapsed r ≠ 0 := by omega
  have hfne : cycleDelta r / elapsed r ≠ 0 := by omega
  have hle : 40960000000 / elapsed r ≤ 40960000000 := Nat.div_le_self _ _
  have hlt : cycleDelta r / elapsed r < U64 :=
    lt_of_le_of_lt (Nat.div_le_self _ _) (sub64_lt _ _)
  have hrep := report_eq r
  rw [if_neg hne, if_neg hfne] at hrep
  refine ⟨_, hrep, rfl, rfl, ?_, ?_, rfl, ?_, ?_⟩
  · show 40960000000 / elapsed r + cycleDelta r / elapsed r / 2 < U64
    unfold U64 at *
    omega
  · show _ = add64 (40960000000 / elapsed r) (cycleDelta r / elapsed r / 2) / _
    rw [add64_small _ _ hle hlt]
  · exact add_half_div_eq_floor _ _ hf
  · intro g w hr
    refine ⟨_, mainloop_ok g w _ (by rw [hr]; exact hrep), rfl⟩

/-- Witness of C3 at the readings `(0, 0, 24000008000, 8000)`, whose frequency is odd. -/
theorem superscalar_is_round_half_up_witness :
    0 < elapsed ⟨0, 0, 24000008000, 8000⟩ ∧
    0 < cycleDelta ⟨0, 0, 24000008000, 8000⟩ / elapsed ⟨0, 0, 24000008000, 8000⟩ ∧
    ∃ line, report ⟨0, 0, 24000008000, 8000⟩ = some line ∧ line.tscfreq = 3000001 ∧
      (line.superscalar : Int) = ⌊(line.instrate : ℚ) / (line.tscfreq : ℚ) + 1 / 2⌋ := by
  refine ⟨by decide, by decide, ?_⟩
  obtain ⟨line, h1, _, h3, _, _, _, h7, _⟩ :=
    superscalar_is_round_half_up ⟨0, 0, 24000008000, 8000⟩ (by decide) (by decide)
  exact ⟨line, h1, by rw [h3]; decide, h7⟩

/-- C4, as the claim states it, fails: the readings `(0, 0, 1, 2)` have `elapsed = 2 > 0`
and a cycle delta of `1`, the frequency truncates to `0`, and the run stops on the division
by that frequency without printing. -/
theorem fault_with_positive_elapsed :
    elapsed ⟨0, 0, 1, 2⟩ = 2 ∧ cycleDelta ⟨0, 0, 1, 2⟩ = 1 ∧ report ⟨0, 0, 1, 2⟩ = none ∧
    (measure TimeSource.usertime
        (World.boot DataModel.lp64 (fun _ => ⟨0, 0⟩) (fun k => 2000 * k) (fun k => k))).1
      = ⟨0, 0, 1, 2⟩ ∧
    (mainloop TimeSource.usertime
        (World.boot DataModel.lp64 (fun _ => ⟨0, 0⟩) (fun k => 2000 * k) (fun k => k))).faulted
      = true ∧
    (mainloop TimeSource.usertime
        (World.boot DataModel.lp64 (fun _ => ⟨0, 0⟩) (fun k => 2000 * k)
          (fun k => k))).world.stdout = [] := by
  have hm : (measure TimeSource.usertime
        (World.boot DataModel.lp64 (fun _ => ⟨0, 0⟩) (fun k => 2000 * k) (fun k => k))).1
      = ⟨0, 0, 1, 2⟩ := by decide
  have hr : report ⟨0, 0, 1, 2⟩ = none := by decide
  refine ⟨by decide, by decide, hr, hm, ?_, ?_⟩
  · rw [mainloop_faulted, hm, hr]
  · rw [mainloop_stdout, hm, hr]
    rfl

/-- C4, amended: a run stops on a division by zero exactly when `elapsed` is `0` (the
divisions by `period`) or the cycle delta is smaller than `elapsed` (the frequency is then
`0`, the division by `tscfreq`); a faulting run prints nothing; every run with
`0 < elapsed <= cycle_delta` completes and prints its line. -/
theorem fault_iff_zero_elapsed_or_zero_frequency (r : Readings) :
    (report r = none ↔ elapsed r = 0 ∨ cycleDelta r < elapsed r) ∧
    (rates r = none ↔ elapsed r = 0) ∧
    ∀ g w, (measure g w).1 = r →
      ((mainloop g w).faulted = true ↔ elapsed r = 0 ∨ cycleDelta r < elapsed r) ∧
      ((mainloop g w).faulted = true → (mainloop g w).world.stdout = w.stdout) ∧
      (0 < elapsed r ∧ elapsed r ≤ cycleDelta r →
        ∃ line w1, mainloop g w = Outcome.ok () w1 ∧ w1.stdout = w.stdout ++ [line]) := by
  have hiff : report r = none ↔ elapsed r = 0 ∨ cycleDelta r < elapsed r := by
    rw [report_eq]
    by_cases hp : elapsed r = 0
    · simp [hp]
    · rw [if_neg hp]
      have hpos : 0 < elapsed r := by omega
      by_cases hf : cycleDelta r / elapsed r = 0
      · rw [if_pos hf]
        have : cycleDelta r < elapsed r := (Nat.div_eq_zero_iff hpos).mp hf
        simp [this]
      · rw [if_neg hf]
        have : ¬ cycleDelta r < elapsed r := by
          intro hlt
          exact hf (Nat.div_eq_of_lt hlt)
        simp [hp, this]
  refine ⟨hiff, ?_, ?_⟩
  · rw [rates_eq]
    by_cases hp : elapsed r = 0 <;> simp [hp]
  intro g w hr
  refine ⟨?_, ?_, ?_⟩
  · rw [mainloop_faulted, hr]
    exact hiff
  · intro hfl
    rw [mainloop_faulted] at hfl
    rw [mainloop_stdout, hfl]
    simp
  · rintro ⟨hpos, hle⟩
    cases hrep : report r with
    | none =>
      rcases hiff.mp hrep with h0 | h0 <;> omega
    | some line =>
      exact ⟨line, _, mainloop_ok g w line (by rw [hr]; exact hrep), rfl⟩

/-- C5: for each time source, one run of `mainloop` leaves exactly the calls time source,
cycle source, workload, cycle source, time source, in this order, whether or not it
faults afterwards: the time source is read twice and the cycle counter twice. -/
theorem run_calls_time_cycle_workload_cycle_time (g : TimeSource) (w : World) :
    (mainloop g w).world.trace =
      w.trace ++ [g.toCall, Call.tsccycles, Call.noploop, Call.tsccycles, g.toCall] ∧
    (runTrace g).count g.toCall = 2 ∧
    (runTrace g).count Call.tsccycles = 2 ∧
    (runTrace g).count Call.noploop = 1 ∧
    (runTrace g).length = 5 ∧
    (mainloop g w).world.tscReads = w.tscReads + 2 ∧
    (mainloop g w).world.timeReads g = w.timeReads g + 2 ∧
    (∀ g1, g1 ≠ g → (mainloop g w).world.timeReads g1 = w.timeReads g1) := by
  have hw : (mainloop g w).world.tscReads = (measure g w).2.tscReads ∧
      (mainloop g w).world.wallReads = (measure g w).2.wallReads ∧
      (mainloop g w).world.cpuReads = (measure g w).2.cpuReads := by
    unfold mainloop
    cases report (measure g w).1 <;> exact ⟨rfl, rfl, rfl⟩
  refine ⟨mainloop_trace g w, ?_, ?_, ?_, rfl, ?_, ?_, ?_⟩
  · cases g <;> decide
  · cases g <;> decide
  · cases g <;> decide
  · rw [hw.1, measure_tscReads]
  · cases g
    · show (mainloop _ w).world.wallReads = _
      rw [hw.2.1]; rfl
    · show (mainloop _ w).world.cpuReads = _
      rw [hw.2.2]; rfl
  · intro g1 hne
    cases g <;> cases g1
    · exact absurd rfl hne
    · show (mainloop _ w).world.cpuReads = _
      rw [hw.2.2]; rfl
    · show (mainloop _ w).world.wallReads = _
      rw [hw.2.1]; rfl
    · exact absurd rfl hne

/-- C7: `noploop` terminates with `4096 * 10000000 = 40960000000` no-ops executed: `NOP12`
expands to `2^12 = 4096 = NOPS` no-ops, the body runs `NLOOP = 10000000` times, the counter
ends at `NLOOP` and no `i++` leaves the range of `int`. -/
theorem noploop_executes_fixed_count :
    noploopRun.nops = 4096 * 10000000 ∧
    noploopRun.nops = 40960000000 ∧
    NOP12.length = 2 ^ 12 ∧
    NOP12.length = NOPS ∧
    (∀ n, execBlock NOP12 n = n + 4096) ∧
    noploopRun.iterations = NLOOP ∧
    NLOOP = 10000000 ∧
    noploopRun.i = (NLOOP : Int) ∧
    noploopRun.overflowed = false ∧
    (∀ w : World, (noploop w).retired = w.retired + NOPS * NLOOP) := by
  have h := noploopRun_eq
  refine ⟨by rw [h], by rw [h], by rw [NOP12_length]; norm_num, by rw [NOP12_length]; rfl,
    fun n => by rw [execBlock_eq, NOP12_length], by rw [h]; rfl, rfl, by rw [h]; rfl,
    by rw [h], ?_⟩
  intro w
  show w.retired + noploopRun.nops = _
  rw [h]
  norm_num [NOPS, NLOOP]

/-- C6: for every argument count and argument vector, `main` is three runs of `mainloop`
in sequence, each started in the world the previous one left, all with the one time source
that is `realtime` exactly when `argc > 1` and `usertime` otherwise; the argument values
play no part; when no run faults `main` returns `0` after exactly three runs. -/
theorem main_is_three_runs_with_one_source (argc : Int) (argv : List String) (w : World) :
    (main argc argv w =
      match mainloop (selected argc) w with
      | .fault w1 => .fault w1
      | .ok _ w1 =>
        match mainloop (selected argc) w1 with
        | .fault w2 => .fault w2
        | .ok _ w2 =>
          match mainloop (selected argc) w2 with
          | .fault w3 => .fault w3
          | .ok _ w3 => .ok 0 w3) ∧
    (selected argc = TimeSource.realtime ↔ argc > 1) ∧
    (selected argc = TimeSource.usertime ↔ ¬ argc > 1) ∧
    (∀ argv1 : List String, main argc argv1 w = main argc argv w) ∧
    ((main argc argv w).faulted = false →
      ∃ w3, main argc argv w = Outcome.ok 0 w3 ∧
        w3.trace =
          w.trace ++ (runTrace (selected argc) ++ runTrace (selected argc) ++
            runTrace (selected argc)) ∧
        ∃ lines : List Report, lines.length = 3 ∧ w3.stdout = w.stdout ++ lines) ∧
    (∃ k, k ≤ 3 ∧
      (main argc argv w).world.trace =
        w.trace ++ (List.replicate k (runTrace (selected argc))).flatten) := by
  have hmain := main_eq_runs argc argv w
  have hfw : (main argc argv w).faulted = (runs (selected argc) 3 w).faulted ∧
      (main argc argv w).world = (runs (selected argc) 3 w).world := by
    rw [hmain]
    cases runs (selected argc) 3 w <;> exact ⟨rfl, rfl⟩
  obtain ⟨k, hk, hk3, htr, hout⟩ := runs_trace (selected argc) 3 w
  refine ⟨?_, ?_, ?_, ?_, ?_, ?_⟩
  · rw [hmain]
    simp only [runs]
    cases mainloop (selected argc) w with
    | fault w1 => rfl
    | ok v1 w1 =>
      simp only
      cases mainloop (selected argc) w1 with
      | fault w2 => rfl
      | ok v2 w2 =>
        simp only
        cases mainloop (selected argc) w2 with
        | fault w3 => rfl
        | ok v3 w3 => rfl
  · unfold selected
    by_cases h : argc > 1 <;> simp [h]
  · unfold selected
    by_cases h : argc > 1 <;> simp [h]
  · intro argv1
    rfl
  · intro hf
    rw [hfw.1] at hf
    have hkeq := hk3 hf
    subst hkeq
    obtain ⟨lines, hlen, hl⟩ := hout hf
    cases hm : main argc argv w with
    | fault w1 =>
      rw [hm] at hfw
      rw [← hfw.1] at hf
      cases hf
    | ok v w3 =>
      have hv : v = 0 := by
        rw [hmain] at hm
        cases hr : runs (selected argc) 3 w with
        | ok u w4 => rw [hr] at hm; injection hm with h1 _; exact h1.symm
        | fault w4 => rw [hr] at hm; cases hm
      subst hv
      rw [hm] at hfw
      have hw3 : w3 = (runs (selected argc) 3 w).world := hfw.2
      refine ⟨w3, rfl, ?_, lines, hlen, ?_⟩
      · rw [hw3, htr]
        simp [List.replicate]
      · rw [hw3, hl]
  · exact ⟨k, hk, by rw [hfw.2, htr]⟩

/-- Witness of C6: with one argument beyond the program name (`argc = 2`) and clocks that
advance, `main` does not fault and returns `0`. -/
theorem main_is_three_runs_with_one_source_witness :
    (main 2 ["noploop", "x"]
      (World.boot DataModel.lp64 (fun k => ⟨8 * k, 0⟩) (fun _ => 0)
        (fun k => 24000000000 * k))).faulted = false ∧
    ∃ w3, main 2 ["noploop", "x"]
      (World.boot DataModel.lp64 (fun k => ⟨8 * k, 0⟩) (fun _ => 0)
        (fun k => 24000000000 * k)) = Outcome.ok 0 w3 ∧
      w3.trace = runTrace TimeSource.realtime ++ runTrace TimeSource.realtime ++
        runTrace TimeSource.realtime := by
  have h := main_is_three_runs_with_one_source 2 ["noploop", "x"]
    (World.boot DataModel.lp64 (fun k => ⟨8 * k, 0⟩) (fun _ => 0) (fun k => 24000000000 * k))
  have hf : (main 2 ["noploop", "x"]
      (World.boot DataModel.lp64 (fun k => ⟨8 * k, 0⟩) (fun _ => 0)
        (fun k => 24000000000 * k))).faulted = false := by
    rw [h.1]
    decide
  obtain ⟨w3, h1, h2, _⟩ := h.2.2.2.2.1 hf
  exact ⟨hf, w3, h1, h2⟩

/-- C9: what a run prints is `report` applied to its own four readings and nothing else:
two runs, in any two worlds and with any time sources, that obtain the same four readings
append the same text to the output (the same line, or nothing when both fault). -/
theorem printed_line_depends_on_own_readings_only (g g1 : TimeSource) (w w1 : World)
    (h : (measure g w).1 = (measure g1 w1).1) :
    ∃ text : List Report,
      text = (report (measure g w).1).toList ∧
      text.length ≤ 1 ∧
      (mainloop g w).world.stdout = w.stdout ++ text ∧
      (mainloop g1 w1).world.stdout = w1.stdout ++ text ∧
      (mainloop g w).faulted = (mainloop g1 w1).faulted := by
  refine ⟨_, rfl, ?_, mainloop_stdout g w, ?_, ?_⟩
  · cases report (measure g w).1 <;> simp
  · rw [h]
    exact mainloop_stdout g1 w1
  · have h1 := mainloop_faulted g w
    have h2 := mainloop_faulted g1 w1
    rw [h] at h1
    cases hf : (mainloop g w).faulted <;> cases hf1 : (mainloop g1 w1).faulted <;>
      simp_all

/-- Witness of C9: the first run of a process on the process clock and a later run of
another process on the wall clock, after a run that printed a line, obtain the readings
`(0, 0, 24000000000, 8000)` and print the same line. -/
theorem printed_line_depends_on_own_readings_only_witness :
    (measure TimeSource.usertime
        (World.boot DataModel.lp64 (fun _ => ⟨0, 0⟩) (fun k => 8000000 * k)
          (fun k => 24000000000 * k))).1 =
      (measure TimeSource.realtime
        { abi := DataModel.ilp32, wallclock := fun k => ⟨8 * k - 16, 0⟩, wallReads := 2,
          cpuclock := fun _ => 0, cpuReads := 0, tsc := fun k => 24000000000 * (k - 2),
          tscReads := 2, retired := 40960000000, trace := runTrace TimeSource.realtime,
          stdout := [⟨10240000, 4000, 3000000, 12000000000, 3⟩] }).1 ∧
    ∃ text : List Report,
      (mainloop TimeSource.usertime
        (World.boot DataModel.lp64 (fun _ => ⟨0, 0⟩) (fun k => 8000000 * k)
          (fun k => 24000000000 * k))).world.stdout = [] ++ text ∧
      (mainloop TimeSource.realtime
        { abi := DataModel.ilp32, wallclock := fun k => ⟨8 * k - 16, 0⟩, wallReads := 2,
          cpuclock := fun _ => 0, cpuReads := 0, tsc := fun k => 24000000000 * (k - 2),
          tscReads := 2, retired := 40960000000, trace := runTrace TimeSource.realtime,
          stdout := [⟨10240000, 4000, 3000000, 12000000000, 3⟩] }).world.stdout =
        [⟨10240000, 4000, 3000000, 12000000000, 3⟩] ++ text := by
  refine ⟨by decide, ?_⟩
  obtain ⟨text, _, _, h3, h4, _⟩ :=
    printed_line_depends_on_own_readings_only TimeSource.usertime TimeSource.realtime
      (World.boot DataModel.lp64 (fun _ => ⟨0, 0⟩) (fun k => 8000000 * k)
        (fun k => 24000000000 * k))
      { abi := DataModel.ilp32, wallclock := fun k => ⟨8 * k - 16, 0⟩, wallReads := 2,
        cpuclock := fun _ => 0, cpuReads := 0, tsc := fun k => 24000000000 * (k - 2),
        tscReads := 2, retired := 40960000000, trace := runTrace TimeSource.realtime,
        stdout := [⟨10240000, 4000, 3000000, 12000000000, 3⟩] }
      (by decide)
  exact ⟨text, h3, h4⟩

/-- C10: the readings `(0, 0, 12000, 8000)` have `elapsed = 8000` and a cycle delta of
`12000 >= elapsed`; `mainloop` prints frequency `1` and `5120000` instructions per cycle,
while the exact ratio `40960000000 / 12000` rounds half-up to `3413333`. -/
theorem superscalar_differs_from_exact_quotient :
    elapsed ⟨0, 0, 12000, 8000⟩ = 8000 ∧
    cycleDelta ⟨0, 0, 12000, 8000⟩ = 12000 ∧
    report ⟨0, 0, 12000, 8000⟩ = some ⟨5120000, 8000, 1, 12000, 5120000⟩ ∧
    ⌊((NOPS * NLOOP : Nat) : ℚ) / (12000 : ℚ) + 1 / 2⌋ = 3413333 ∧
    (∃ r line, 0 < elapsed r ∧ elapsed r ≤ cycleDelta r ∧ report r = some line ∧
      (line.superscalar : Int) ≠
        ⌊((NOPS * NLOOP : Nat) : ℚ) / (cycleDelta r : ℚ) + 1 / 2⌋) ∧
    (mainloop TimeSource.usertime
        (World.boot DataModel.lp64 (fun _ => ⟨0, 0⟩) (fun k => 8000000 * k)
          (fun k => 12000 * k))).world.stdout = [⟨5120000, 8000, 1, 12000, 5120000⟩] := by
  have hfloor : ⌊((NOPS * NLOOP : Nat) : ℚ) / (12000 : ℚ) + 1 / 2⌋ = 3413333 := by
    rw [Int.floor_eq_iff]
    norm_num [NOPS, NLOOP]
  have hrep : report ⟨0, 0, 12000, 8000⟩ = some ⟨5120000, 8000, 1, 12000, 5120000⟩ := by
    decide
  have hm : (measure TimeSource.usertime
        (World.boot DataModel.lp64 (fun _ => ⟨0, 0⟩) (fun k => 8000000 * k)
          (fun k => 12000 * k))).1 = ⟨0, 0, 12000, 8000⟩ := by decide
  refine ⟨by decide, by decide, hrep, hfloor, ?_, ?_⟩
  · refine ⟨⟨0, 0, 12000, 8000⟩, _, by decide, by decide, hrep, ?_⟩
    have hd : ((cycleDelta ⟨0, 0, 12000, 8000⟩ : Nat) : ℚ) = 12000 := by
      have : cycleDelta ⟨0, 0, 12000, 8000⟩ = 12000 := by decide
      rw [this]
      norm_num
    rw [hd, hfloor]
    decide
  · rw [mainloop_stdout, hm, hrep]
    rfl

/-- C8, as the claim states it, fails on each of its three parts. With a 64-bit `long`, the
reading `(-1, 0)` precedes `(0, 0)` but `realtime` returns `2^64 - 1000` for it and `0` for
the other. With a 32-bit `long`, the product `tv_sec * 1000` wraps: the readings
`(1791001362, 431000000)` and `(1791001362, 432000000)` give `2^64 - 1` and `0`. And the
tick count `-1000` gives `usertime = 2^64 - 1`, the tick count `0` gives `0`. -/
theorem time_sources_not_monotone_on_all_readings :
    (timespec.le ⟨-1, 0⟩ ⟨0, 0⟩ ∧
      realtimeOf DataModel.lp64 ⟨-1, 0⟩ = 18446744073709550616 ∧
      realtimeOf DataModel.lp64 ⟨0, 0⟩ = 0 ∧
      ¬ realtimeOf DataModel.lp64 ⟨-1, 0⟩ ≤ realtimeOf DataModel.lp64 ⟨0, 0⟩) ∧
    (timespec.le ⟨1791001362, 431000000⟩ ⟨1791001362, 432000000⟩ ∧
      realtimeOf DataModel.ilp32 ⟨1791001362, 431000000⟩ = 18446744073709551615 ∧
      realtimeOf DataModel.ilp32 ⟨1791001362, 432000000⟩ = 0 ∧
      ¬ realtimeOf DataModel.ilp32 ⟨1791001362, 431000000⟩ ≤
          realtimeOf DataModel.ilp32 ⟨1791001362, 432000000⟩) ∧
    ((-1000 : Int) ≤ 0 ∧
      usertimeOf (-1000) = 18446744073709551615 ∧
      usertimeOf 0 = 0 ∧
      ¬ usertimeOf (-1000) ≤ usertimeOf 0) := by
  refine ⟨⟨by decide, by decide, by decide, by decide⟩,
    ⟨by decide, by decide, by decide, by decide⟩,
    ⟨by decide, by decide, by decide, by decide⟩⟩

/-- C8, amended: on readings at or after the epoch whose millisecond count fits the signed
`long`, `realtime` returns `tv_sec * 1000 + tv_nsec / 1000000` and is monotone in the
lexicographic order of the readings; on tick counts `0 <= c <= c1` within `clock_t`,
`usertime` returns `c / (CLOCKS_PER_SEC / 1000)` and is monotone. -/
theorem time_sources_monotone_in_range (abi : DataModel) (a b : timespec) (c c1 : Int)
    (hle : timespec.le a b) (hsec : 0 ≤ a.tv_sec)
    (hna : 0 ≤ a.tv_nsec ∧ a.tv_nsec < 1000000000)
    (hnb : 0 ≤ b.tv_nsec ∧ b.tv_nsec < 1000000000)
    (hfit : b.tv_sec * 1000 + b.tv_nsec / 1000000 ≤ maxSigned abi.longBits)
    (hc : 0 ≤ c) (hcc : c ≤ c1) (hc1 : c1 ≤ maxSigned abi.longBits) :
    (realtimeOf abi a : Int) = a.tv_sec * 1000 + a.tv_nsec / 1000000 ∧
    (realtimeOf abi b : Int) = b.tv_sec * 1000 + b.tv_nsec / 1000000 ∧
    realtimeOf abi a ≤ realtimeOf abi b ∧
    (usertimeOf c : Int) = c / (CLOCKS_PER_SEC / 1000) ∧
    (usertimeOf c1 : Int) = c1 / (CLOCKS_PER_SEC / 1000) ∧
    usertimeOf c ≤ usertimeOf c1 := by
  have hk1 : CLOCKS_PER_SEC / 1000 = 1000 := by decide
  have hmax : maxSigned abi.longBits ≤ 9223372036854775807 := by
    cases abi <;> decide
  unfold timespec.le at hle
  have hb0 : 0 ≤ b.tv_sec := by omega
  have hafit : a.tv_sec * 1000 + a.tv_nsec / 1000000 ≤ maxSigned abi.longBits := by omega
  have ea := realtimeOf_of_fits abi a hsec hna.1 hafit
  have eb := realtimeOf_of_fits abi b hb0 hnb.1 hfit
  have ec := usertimeOf_of_fits c hc (by omega)
  have ec1 := usertimeOf_of_fits c1 (by omega) (by omega)
  rw [hk1]
  refine ⟨ea, eb, ?_, ec, ec1, ?_⟩
  · have : (realtimeOf abi a : Int) ≤ (realtimeOf abi b : Int) := by
      rw [ea, eb]
      omega
    exact_mod_cast this
  · have : (usertimeOf c : Int) ≤ (usertimeOf c1 : Int) := by
      rw [ec, ec1]
      omega
    exact_mod_cast this

/-- Witness of C8, amended, on a 32-bit `long`: the readings `(2147483, 0)` and
`(2147483, 647000000)`, and the tick counts `5000` and `8005000`. -/
theorem time_sources_monotone_in_range_witness :
    timespec.le ⟨2147483, 0⟩ ⟨2147483, 647000000⟩ ∧
    realtimeOf DataModel.ilp32 ⟨2147483, 0⟩ ≤
      realtimeOf DataModel.ilp32 ⟨2147483, 647000000⟩ ∧
    usertimeOf 5000 ≤ usertimeOf 8005000 := by
  have h := time_sources_monotone_in_range DataModel.ilp32 ⟨2147483, 0⟩
    ⟨2147483, 647000000⟩ 5000 8005000 (by decide) (by decide) (by decide) (by decide)
    (by decide) (by decide) (by decide) (by decide)
  exact ⟨by decide, h.2.2.1, h.2.2.2.2.2⟩

end Noploop
